import Mathlib

/-!
Verification of the material-expiration monitoring core (Monitor.py).

Shallow embedding conventions:
* Calendar dates from the source extracts are whole days since 1970-01-01,
  modelled as `ℤ`.  Computed expected-expiration timestamps may carry a
  fractional-day component (entry date plus a fractional day count), so they
  are modelled as `ℚ`; the pandas day accessor on a timedelta is the floor of
  the day difference.
* Missing values (NaN / NaT) are `Option.none`; every derived column that can
  be missing is an `Option`.
* `np.select` is a first-match decision list, embedded as `npSelect`.
* Free text is a `List Char`; duration parsing scopes the Python regex classes
  to their ASCII meaning, which covers the data the parser is specified on.
* Numeric values are exact rationals (`ℚ`); the multipliers 30.4375 and 365
  and the percentage arithmetic are exact in this range.
-/

/-- Days-since-epoch (1970-01-01) of a proleptic Gregorian civil date,
following the standard era-based conversion algorithm. -/
def toDays (y m d : ℤ) : ℤ :=
  let y2 : ℤ := if m ≤ 2 then y - 1 else y
  let era : ℤ := (if 0 ≤ y2 then y2 else y2 - 399) / 400
  let yoe : ℤ := y2 - era * 400
  let mp : ℤ := if 2 < m then m - 3 else m + 9
  let doy : ℤ := (153 * mp + 2) / 5 + d - 1
  let doe : ℤ := yoe * 365 + yoe / 4 - yoe / 100 + doy
  era * 146097 + doe - 719468

/-- Calendar year of a days-since-epoch value; embeds the pandas `.dt.year`
accessor used for the year-2070 sentinel test. -/
def yearOfDay (z : ℤ) : ℤ :=
  let z2 : ℤ := z + 719468
  let era : ℤ := (if 0 ≤ z2 then z2 else z2 - 146096) / 146097
  let doe : ℤ := z2 - era * 146097
  let yoe : ℤ := (doe - doe / 1460 + doe / 36524 - doe / 146096) / 365
  let y : ℤ := yoe + era * 400
  let doy : ℤ := doe - (365 * yoe + yoe / 4 - yoe / 100)
  let mp : ℤ := (5 * doy + 2) / 153
  let m : ℤ := if mp < 10 then mp + 3 else mp - 9
  if m ≤ 2 then y + 1 else y

/-- Floor of a rational, in the executable numerator-over-denominator form
(equal to the mathematical floor by `Rat.floor_def`). -/
def floorQ (q : ℚ) : ℤ := q.num / (q.den : ℤ)

/-- Year of a (possibly fractional-day) timestamp: the time-of-day component
never changes the calendar date, so the year is that of the floored day. -/
def yearOfStamp (q : ℚ) : ℤ := yearOfDay (floorQ q)

/-- First-match decision list with a default, embedding `np.select`:
the value of the first pair whose condition holds, else the default. -/
def npSelect {α : Type} : List (Bool × α) → α → α
  | [], dflt => dflt
  | (c, v) :: rest, dflt => if c then v else npSelect rest dflt

/-- The four values of the `Status_Tempo` column (total-shelf-life axis). -/
inductive StatusTempo where
  | semValidade
  | bom
  | atencao
  | critico
deriving DecidableEq, Repr

/-- The four values of the percent-conformance `Status` column. -/
inductive StatusPct where
  | semValidade
  | dentro
  | atencao
  | fora
deriving DecidableEq, Repr

/-- The five divergence tags of `Tipo_Problema`; the empty string is
represented as `Option.none` around this type. -/
inductive TipoProblema where
  | semTempoCadastrado
  | semDataReal
  | semTempoParaCalcular
  | materialVencido
  | desvioCritico
deriving DecidableEq, Repr

/-- The five values of the timeline `Status` column. -/
inductive StatusTimeline where
  | semValidade
  | vencido
  | critico
  | atencao
  | normal
deriving DecidableEq, Repr

/-- A timeline-feed row (Vencimentos_SAP extract) with its computed columns. -/
structure TimelineRow where
  planta : String
  deposito : String
  material : String
  materialNumber : String
  lote : String
  expirationDate : Option ℤ
  productionDate : Option ℤ
  freeForUse : Option ℚ
  restricted : Option ℚ
  diasAteVencimento : Option ℤ := none
  statusTimeline : StatusTimeline := .semValidade
  urgencyLevel : ℕ := 4
deriving DecidableEq, Repr

/-- Embeds `calcular_status_timeline` (Monitor.py): days until expiration and
the first-match urgency classification over them. -/
def calcular_status_timeline (r : TimelineRow) (hoje : ℤ) : TimelineRow :=
  let dias : Option ℤ := r.expirationDate.map (fun e => e - hoje)
  let conds : List Bool :=
    [ r.expirationDate.isNone,
      dias.any (fun x => decide (x < 0)),
      dias.any (fun x => decide (x ≤ 7)),
      dias.any (fun x => decide (x ≤ 30)),
      dias.any (fun x => decide (30 < x)) ]
  let st : StatusTimeline := npSelect
    (conds.zip [.semValidade, .vencido, .critico, .atencao, .normal]) .normal
  let lvl : ℕ := npSelect (conds.zip [4, 1, 2, 3, 4]) 4
  { r with diasAteVencimento := dias, statusTimeline := st, urgencyLevel := lvl }

/-- Digit-run value: folds ASCII digit characters into the denoted natural. -/
def digitsVal (l : List Char) : ℕ :=
  l.foldl (fun a c => 10 * a + (c.toNat - 48)) 0

/-- Value matched by the number pattern at the head of `l`: an optional sign,
a nonempty digit run, and optionally a dot followed by a nonempty digit run
(taken greedily), as in the regex used by the source. -/
def numAt (l : List Char) : Option ℚ :=
  let sr : ℚ × List Char :=
    match l with
    | [] => (1, [])
    | c :: r =>
      if c = '-' then (-1, r) else if c = '+' then (1, r) else (1, c :: r)
  let ds := sr.2.takeWhile Char.isDigit
  if ds.isEmpty then none
  else
    let intPart : ℚ := (digitsVal ds : ℕ)
    match sr.2.drop ds.length with
    | c :: r2 =>
      if c = '.' then
        let fs := r2.takeWhile Char.isDigit
        if fs.isEmpty then some (sr.1 * intPart)
        else some (sr.1 * (intPart + (digitsVal fs : ℕ) / (10 : ℚ) ^ fs.length))
      else some (sr.1 * intPart)
    | [] => some (sr.1 * intPart)

/-- Leftmost number in the text, embedding `re.search` of the signed decimal
pattern: the first position where `numAt` succeeds. -/
def firstNumber : List Char → Option ℚ
  | [] => none
  | c :: t =>
    match numAt (c :: t) with
    | some v => some v
    | none => firstNumber t

/-- Substring test: `p` occurs contiguously inside `l` (Python `in`). -/
def containsSub : List Char → List Char → Bool
  | [], p => p.isEmpty
  | c :: t, p => p.isPrefixOf (c :: t) || containsSub t p

/-- Word-constituent characters for the regex word boundary. -/
def isWordChar (c : Char) : Bool := c.isAlphanum || c == '_'

/-- The position just before the current suffix is a word boundary. -/
def boundaryOk (prev : Option Char) : Bool :=
  match prev with
  | none => true
  | some c => !(isWordChar c)

/-- The position right after the first `n` characters of `l` is a boundary. -/
def afterOk (l : List Char) (n : ℕ) : Bool :=
  match l.drop n with
  | [] => true
  | c :: _ => !(isWordChar c)

/-- Scan for a whole-word occurrence of `p`, tracking the previous character
to decide the left word boundary. -/
def hasWordAt (prev : Option Char) : List Char → List Char → Bool
  | [], p => p.isEmpty && boundaryOk prev
  | c :: t, p =>
    (boundaryOk prev && p.isPrefixOf (c :: t) && afterOk (c :: t) p.length)
      || hasWordAt (some c) t p

/-- Whole-word occurrence of `p` in `l` (the regex word-boundary match). -/
def hasWord (l p : List Char) : Bool := hasWordAt none l p

/-- Strip leading and trailing whitespace (Python `str.strip`). -/
def trimChars (l : List Char) : List Char :=
  ((l.dropWhile Char.isWhitespace).reverse.dropWhile Char.isWhitespace).reverse

/-- Decimal-comma normalisation (the source replaces "," with "."). -/
def commaDot (c : Char) : Char := if c == ',' then '.' else c

/-- Text normalisation of the parser: strip, lowercase, comma to dot. -/
def normalizeText (l : List Char) : List Char :=
  ((trimChars l).map Char.toLower).map commaDot

/-- Core of `parse_tempo_validade_to_days` on normalised-input text:
extract the first number, then test unit indicators in the source's order
(month, then year, then day) and scale to days. -/
def parseDaysChars (l : List Char) : Option ℚ :=
  let s := normalizeText l
  if s.isEmpty then none
  else
    match firstNumber s with
    | none => none
    | some num =>
      if containsSub s ['m', 'e', 's'] || hasWord s ['m', 'o'] then
        some (num * (487 / 16 : ℚ))
      else if containsSub s ['a', 'n', 'o'] || containsSub s ['a', 'n', 'o', 's']
          || containsSub s ['y', 'e', 'a', 'r'] then
        some (num * 365)
      else if containsSub s ['d', 'i', 'a'] || containsSub s ['d', 'i', 'a', 's']
          || hasWord s ['d'] then
        some num
      else none

/-- Embeds `parse_tempo_validade_to_days` (Monitor.py): NaN input propagates,
otherwise the text is parsed; 30.4375 = 487/16 days per month. -/
def parse_tempo_validade_to_days : Option (List Char) → Option ℚ
  | none => none
  | some l => parseDaysChars l

/-- The ASCII character of a decimal digit. -/
def digitToChar (i : Fin 10) : Char := Char.ofNat (48 + i.val)

/-- The text of a digit sequence. -/
def renderDigits (ds : List (Fin 10)) : List Char := ds.map digitToChar

/-- The natural number a digit sequence denotes in base ten. -/
def decimalVal (ds : List (Fin 10)) : ℕ :=
  ds.foldl (fun a i => 10 * a + i.val) 0

/-- An integrated record: movement fields plus the joined expiration date and
declared shelf-life text, plus every column the pipeline computes.  Computed
columns start out missing, mirroring columns not yet added to the frame. -/
structure Row where
  planta : String
  deposito : String
  material : String
  descricao : String
  lote : String
  quantidade : Option ℚ
  um : String
  movimento : String
  entrada : Option ℤ
  venc : Option ℤ
  tempoValidade : Option (List Char)
  diasValidade : Option ℚ := none
  vencEsperado : Option ℚ := none
  vencAnalise : Option ℚ := none
  diasRestantes : Option ℤ := none
  diasValidadeTotal : Option ℤ := none
  statusTempo : StatusTempo := .semValidade
  diasEsperados : Option ℚ := none
  validadeReal : Option ℤ := none
  pctRestante : Option ℚ := none
  statusPct : StatusPct := .semValidade
  desvioDias : Option ℤ := none
  tipoProblema : Option TipoProblema := none
  temProblema : Bool := false
deriving DecidableEq, Repr

/-- Embeds `calcular_vencimento_esperado` (Monitor.py): shelf-life text to
days, and expected expiration only when the entry date is present and the
parsed day count is present and positive. -/
def calcular_vencimento_esperado (r : Row) : Row :=
  let dias : Option ℚ := parse_tempo_validade_to_days r.tempoValidade
  let vencEsp : Option ℚ :=
    match r.entrada, dias with
    | some e, some d => if 0 < d then some ((e : ℚ) + d) else none
    | _, _ => none
  { r with diasValidade := dias, vencEsperado := vencEsp }

/-- Total shelf life in whole days: analysis date minus entry date, missing
when either is. -/
def diasValidadeTotalOf (va : Option ℚ) (ent : Option ℤ) : Option ℤ :=
  match va, ent with
  | some q, some e => some (floorQ (q - (e : ℚ)))
  | _, _ => none

/-- The first-match `Status_Tempo` classification over the analysis date and
entry date, exactly the `np.select` decision list of the source: missing
dates, then total shelf life over 90, at least 30, at least 0, with the
missing-dates value as the default. -/
def statusTempoOf (va : Option ℚ) (ent : Option ℤ) : StatusTempo :=
  npSelect
    [ (va.isNone || ent.isNone, .semValidade),
      ((diasValidadeTotalOf va ent).any fun d => decide (90 < d), .bom),
      ((diasValidadeTotalOf va ent).any fun d => decide (30 ≤ d), .atencao),
      ((diasValidadeTotalOf va ent).any fun d => decide (0 ≤ d), .critico) ]
    .semValidade

/-- Embeds `calcular_status_tempo` (Monitor.py): year-2070 sentinel scrub of
the real date, analysis date as real-else-expected with a second sentinel
scrub, remaining days, total shelf life, and the first-match classification. -/
def calcular_status_tempo (r : Row) (hoje : ℤ) : Row :=
  let orig2070 : Bool :=
    match r.venc with
    | some x => yearOfDay x == 2070
    | none => false
  let venc1 : Option ℤ := if orig2070 then none else r.venc
  let va0 : Option ℚ :=
    match venc1 with
    | some x => some (x : ℚ)
    | none => r.vencEsperado
  let va1 : Option ℚ :=
    match va0 with
    | some q => if yearOfStamp q == 2070 then none else some q
    | none => none
  let va : Option ℚ := if orig2070 then none else va1
  let dr : Option ℤ := va.map (fun q => floorQ (q - (hoje : ℚ)))
  { r with venc := venc1, vencAnalise := va, diasRestantes := dr,
           diasValidadeTotal := diasValidadeTotalOf va r.entrada,
           statusTempo := statusTempoOf va r.entrada }

/-- Embeds `calcular_status_percentual` (Monitor.py): expected days with a
date-difference fallback, real shelf life, the conformance percentage
clipped to [0, 200], and the threshold classification.  The `hoje` argument
only feeds a compatibility branch that recomputes `Dias_Restantes` when that
column is absent; the pipeline always runs `calcular_status_tempo` first, so
the field is present and the branch is dead here. -/
def calcular_status_percentual (r : Row) (_hoje : ℤ)
    (limiarBom limiarAtencao : ℚ) : Row :=
  let de : Option ℚ :=
    let falt : Bool :=
      match r.diasValidade with
      | none => true
      | some d => decide (d ≤ 0)
    if falt then
      match r.vencAnalise, r.entrada with
      | some q, some e => some ((floorQ (q - (e : ℚ)) : ℤ) : ℚ)
      | _, _ => none
    else r.diasValidade
  let vr : Option ℤ :=
    match r.entrada, r.venc with
    | some e, some v => some (v - e)
    | _, _ => none
  let pct0 : Option ℚ :=
    match vr, r.diasValidade with
    | some x, some dv => if 0 < dv then some ((x : ℚ) / dv * 100) else none
    | _, _ => none
  let pct : Option ℚ := pct0.map (fun p => max 0 (min p 200))
  let sp : StatusPct :=
    match pct with
    | none => .semValidade
    | some p =>
      if limiarBom ≤ p then .dentro
      else if limiarAtencao ≤ p then .atencao
      else .fora
  { r with diasEsperados := de, validadeReal := vr, pctRestante := pct,
           statusPct := sp }

/-- Divergence condition 1: no declared shelf-life text while a real or an
expected expiration date exists. -/
def divCond1 (r : Row) : Bool :=
  r.tempoValidade.isNone && (r.venc.isSome || r.vencEsperado.isSome)

/-- Divergence condition 2: no real date while an expected one exists. -/
def divCond2 (r : Row) : Bool := r.venc.isNone && r.vencEsperado.isSome

/-- Divergence condition 3: a real date exists but no expected one. -/
def divCond3 (r : Row) : Bool := r.venc.isSome && r.vencEsperado.isNone

/-- Divergence condition 4: the material is past its analysis date. -/
def divCond4 (r : Row) : Bool := r.diasRestantes.any (fun d => decide (d < 0))

/-- Divergence condition 5: critical percent deviation. -/
def divCond5 (r : Row) : Bool := r.statusPct == StatusPct.fora

/-- Embeds `identificar_divergencias` (Monitor.py): the deviation-days
diagnostic and the first-match problem tagging over the five conditions. -/
def identificar_divergencias (r : Row) : Row :=
  let desvio : Option ℤ :=
    match r.venc, r.vencEsperado with
    | some v, some q => some (floorQ ((v : ℚ) - q))
    | _, _ => none
  let tipo : Option TipoProblema := npSelect
    [ (divCond1 r, some .semTempoCadastrado),
      (divCond2 r, some .semDataReal),
      (divCond3 r, some .semTempoParaCalcular),
      (divCond4 r, some .materialVencido),
      (divCond5 r, some .desvioCritico) ] none
  { r with desvioDias := desvio, tipoProblema := tipo,
           temProblema := tipo.isSome }

/-- A source-B row (SQ00 extract) after key cleaning: material, batch and the
real expiration date (possibly missing). -/
structure SqRow where
  material : String
  lote : String
  venc : Option ℤ
deriving DecidableEq, Repr

/-- The de-duplication key of source B. -/
def sqKey (r : SqRow) : String × String := (r.material, r.lote)

/-- Ascending order on real expiration dates with missing dates last,
matching the default sort of the loader (missing values at the end). -/
def vencLE (a b : SqRow) : Bool :=
  match a.venc, b.venc with
  | some x, some y => decide (x ≤ y)
  | some _, none => true
  | none, some _ => false
  | none, none => true

/-- Keep, for each key, the last occurrence in list order (`keep="last"`),
preserving the order of the retained rows. -/
def dropDupKeepLast : List SqRow → List SqRow
  | [] => []
  | r :: t =>
    if t.any (fun s => decide (sqKey s = sqKey r)) then dropDupKeepLast t
    else r :: dropDupKeepLast t

/-- Embeds the source-B de-duplication of `carregar_dados` (Monitor.py):
sort ascending by the date with missing dates last, then keep the last
occurrence of each (material, batch) key. -/
def dedup_sq00 (l : List SqRow) : List SqRow :=
  dropDupKeepLast (l.mergeSort vencLE)

/-- A source-C row (supplier shelf-life extract) after key cleaning. -/
structure FornRow where
  material : String
  tempoValidade : Option (List Char)
deriving DecidableEq, Repr

/-- Keep the first occurrence of each material (`drop_duplicates` default),
tracking the keys already seen. -/
def dropDupKeepFirstForn (seen : List String) : List FornRow → List FornRow
  | [] => []
  | r :: t =>
    if seen.contains r.material then dropDupKeepFirstForn seen t
    else r :: dropDupKeepFirstForn (r.material :: seen) t

/-- Embeds the source-C de-duplication of `carregar_dados` (Monitor.py). -/
def dedup_fornecedores (l : List FornRow) : List FornRow :=
  dropDupKeepFirstForn [] l

/-- A source-A row (MB51 movement extract) after cleaning. -/
structure MovRow where
  planta : String
  deposito : String
  material : String
  descricao : String
  lote : String
  quantidade : Option ℚ
  um : String
  movimento : String
  entrada : Option ℤ
deriving DecidableEq, Repr

/-- Builds an integrated record from a movement row and the joined values. -/
def mkRow (m : MovRow) (venc : Option ℤ) (tv : Option (List Char)) : Row :=
  { planta := m.planta, deposito := m.deposito, material := m.material,
    descricao := m.descricao, lote := m.lote, quantidade := m.quantidade,
    um := m.um, movimento := m.movimento, entrada := m.entrada,
    venc := venc, tempoValidade := tv }

/-- Left outer join of movements with source B on (material, batch): every
movement row pairs with each matching expiration row, or with a missing
date when unmatched. -/
def merge_mb51_sq00 (mov : List MovRow) (sq : List SqRow) :
    List (MovRow × Option ℤ) :=
  mov.flatMap (fun m =>
    match sq.filter (fun s =>
        decide (s.material = m.material) && decide (s.lote = m.lote)) with
    | [] => [(m, none)]
    | l => l.map (fun s => (m, s.venc)))

/-- Left outer join of the previous result with source C on material. -/
def merge_fornecedores (l1 : List (MovRow × Option ℤ)) (forn : List FornRow) :
    List Row :=
  l1.flatMap (fun p =>
    match forn.filter (fun f => decide (f.material = p.1.material)) with
    | [] => [mkRow p.1 p.2 none]
    | l => l.map (fun f => mkRow p.1 p.2 f.tempoValidade))

/-- Embeds the integration step of `carregar_dados` (Monitor.py): both joins
run against the de-duplicated right-hand sides. -/
def integrar_dados (mov : List MovRow) (sq : List SqRow) (forn : List FornRow) :
    List Row :=
  merge_fornecedores (merge_mb51_sq00 mov (dedup_sq00 sq))
    (dedup_fornecedores forn)

/-- The scope argument of the filter engine (`filter_source`). -/
inductive FilterScope where
  | all
  | globalScope
  | chart
  | tab
deriving DecidableEq, Repr

/-- The centralised filter state (`initialize_filter_state`): global search
and depot multi-select, the three single-value chart drill-downs, and the
tab-local selections (held in the state but applied elsewhere). -/
structure FilterState where
  searchQuery : List Char := []
  depotFilter : List String := []
  statusFromChart : Option StatusPct := none
  statusTempoFromChart : Option StatusTempo := none
  problemTypeFromChart : Option TipoProblema := none
  auditDeposito : List String := []
  auditMovimento : List String := []
  auditMaterial : List String := []
  auditStatusPct : List StatusPct := []
  auditStatusTempo : List StatusTempo := []
  auditTipoProblema : List TipoProblema := []
deriving DecidableEq, Repr

/-- Description tokens for the applied-filter summary list. -/
inductive AppliedFilter where
  | statusChart (s : StatusPct)
  | statusTempoChart (s : StatusTempo)
  | problemChart (p : TipoProblema)
  | depot (l : List String)
  | search (q : List Char)
deriving DecidableEq, Repr

/-- Case-insensitive substring containment over the two searched fields. -/
def searchHit (q : List Char) (r : Row) : Bool :=
  containsSub (r.material.data.map Char.toLower) (q.map Char.toLower)
    || containsSub (r.descricao.data.map Char.toLower) (q.map Char.toLower)

/-- Whether the requested scope includes the chart-filter group. -/
def scopeChart (scope : FilterScope) : Bool :=
  scope == .all || scope == .chart

/-- Whether the requested scope includes the global-filter group. -/
def scopeGlobal (scope : FilterScope) : Bool :=
  scope == .all || scope == .globalScope

/-- The early-exit test of `apply_filters`: some filter of the requested
scope is active. -/
def hasActiveFilters (fs : FilterState) (scope : FilterScope) : Bool :=
  (scopeGlobal scope
      && (!fs.searchQuery.isEmpty || !fs.depotFilter.isEmpty))
    || (scopeChart scope
      && (fs.statusFromChart.isSome || fs.statusTempoFromChart.isSome
        || fs.problemTypeFromChart.isSome))

/-- The combined row mask of `apply_filters`: each active filter of the
requested scope contributes one conjunct, inactive ones contribute true. -/
def filterMask (fs : FilterState) (scope : FilterScope) (r : Row) : Bool :=
  (if scopeChart scope then
    (match fs.statusFromChart with
     | some v => r.statusPct == v
     | none => true)
    && (match fs.statusTempoFromChart with
        | some v => r.statusTempo == v
        | none => true)
    && (match fs.problemTypeFromChart with
        | some v => r.tipoProblema == some v
        | none => true)
   else true)
  && (if scopeGlobal scope then
      (if fs.depotFilter.isEmpty then true
       else fs.depotFilter.contains r.deposito)
      && (if fs.searchQuery.isEmpty then true else searchHit fs.searchQuery r)
     else true)

/-- The applied-filter description list, in the order the source appends. -/
def appliedFilterList (fs : FilterState) (scope : FilterScope) :
    List AppliedFilter :=
  (if scopeChart scope then
    (match fs.statusFromChart with
     | some v => [AppliedFilter.statusChart v]
     | none => [])
    ++ (match fs.statusTempoFromChart with
        | some v => [AppliedFilter.statusTempoChart v]
        | none => [])
    ++ (match fs.problemTypeFromChart with
        | some v => [AppliedFilter.problemChart v]
        | none => [])
   else [])
  ++ (if scopeGlobal scope then
      (if fs.depotFilter.isEmpty then []
       else [AppliedFilter.depot fs.depotFilter])
      ++ (if fs.searchQuery.isEmpty then []
          else [AppliedFilter.search fs.searchQuery])
     else [])

/-- Embeds `apply_filters` (Monitor.py): early return when no filter of the
scope is active, otherwise the conjunction mask selects rows in order; the
frame is also returned untouched when no description was appended. -/
def apply_filters (df : List Row) (fs : FilterState) (scope : FilterScope) :
    List Row × List AppliedFilter :=
  if !hasActiveFilters fs scope then (df, [])
  else
    let applied := appliedFilterList fs scope
    let filtered :=
      if applied.isEmpty then df else df.filter (filterMask fs scope)
    (filtered, applied)

/-- A timeline row matching the specification scenario: expiration on
2024-06-03 with free quantity available. -/
def tlScenario : TimelineRow :=
  { planta := "P1", deposito := "D1", material := "Mat", materialNumber := "100",
    lote := "A", expirationDate := some (toDays 2024 6 3),
    productionDate := none, freeForUse := some 1, restricted := none }

/-- A record whose real expiration date carries the year-2070 sentinel while
an expected expiration is available as a potential fallback. -/
def row2070 : Row :=
  { planta := "P1", deposito := "D1", material := "100", descricao := "Mat",
    lote := "A", quantidade := some 1, um := "UN", movimento := "101",
    entrada := some (toDays 2024 3 1), venc := some (toDays 2070 1 1),
    tempoValidade := some ['1', '2', ' ', 'm', 'e', 's', 'e', 's'],
    vencEsperado := some ((toDays 2025 1 1 : ℤ) : ℚ) }

/-- A record whose real expiration date precedes its entry date, so its total
shelf life is negative while both dates are present. -/
def rowNegVida : Row :=
  { planta := "P1", deposito := "D1", material := "100", descricao := "Mat",
    lote := "A", quantidade := some 1, um := "UN", movimento := "101",
    entrada := some (toDays 2024 3 1), venc := some (toDays 2024 1 1),
    tempoValidade := none }

/-- A record with a 100-day total shelf life. -/
def rowBoa : Row :=
  { planta := "P1", deposito := "D1", material := "100", descricao := "Mat",
    lote := "A", quantidade := some 1, um := "UN", movimento := "101",
    entrada := some 0, venc := some 100, tempoValidade := none }

/-- No filter of any group is active: the state every session starts in. -/
def allEmptyFilterState (fs : FilterState) : Prop :=
  fs.searchQuery = [] ∧ fs.depotFilter = [] ∧ fs.statusFromChart = none ∧
    fs.statusTempoFromChart = none ∧ fs.problemTypeFromChart = none ∧
    fs.auditDeposito = [] ∧ fs.auditMovimento = [] ∧ fs.auditMaterial = [] ∧
    fs.auditStatusPct = [] ∧ fs.auditStatusTempo = [] ∧
    fs.auditTipoProblema = []

/-- A record with a negative shelf-life text and an expected expiration but
no real expiration date: divergence condition 2 fires, condition 1 does not. -/
def rowDiv : Row :=
  { planta := "P1", deposito := "D1", material := "100", descricao := "Mat",
    lote := "A", quantidade := some 1, um := "UN", movimento := "101",
    entrada := some 0, venc := none,
    tempoValidade := some ['9', '0', ' ', 'd', 'i', 'a', 's'],
    vencEsperado := some 90 }

/-- The percent-conformance scenario record: entry 2024-01-01, real
expiration 2024-02-01 (31 days lived), declared shelf life of 100 days. -/
def rowPct : Row :=
  { planta := "P1", deposito := "D1", material := "100", descricao := "Mat",
    lote := "A", quantidade := some 1, um := "UN", movimento := "101",
    entrada := some (toDays 2024 1 1), venc := some (toDays 2024 2 1),
    tempoValidade := some ['1', '0', '0', ' ', 'd', 'i', 'a', 's'],
    diasValidade := some 100 }

/-- The earlier-dated duplicate of the de-duplication scenario. -/
def sqJan : SqRow := ⟨"100", "A", some (toDays 2024 1 1)⟩

/-- The later-dated duplicate of the de-duplication scenario. -/
def sqMar : SqRow := ⟨"100", "A", some (toDays 2024 3 1)⟩

/-- A duplicate of the same key with a missing real expiration date. -/
def sqNaT : SqRow := ⟨"100", "A", none⟩

/-- `floorQ` of an integer cast is that integer. -/
lemma floorQ_intCast (a : ℤ) : floorQ ((a : ℚ)) = a := by
  simp [floorQ]

/-- `floorQ` of a difference of integer casts is the integer difference. -/
lemma floorQ_intCast_sub (a b : ℤ) : floorQ ((a : ℚ) - (b : ℚ)) = a - b := by
  rw [← Int.cast_sub]
  simp only [floorQ, Rat.num_intCast, Rat.den_intCast, Nat.cast_one,
    Int.ediv_one]

/-- C7: `apply_filters` on an all-empty filter state is the identity on the
records, for every scope, and reports an empty applied-filter list. -/
theorem claim_C7 (df : List Row) (fs : FilterState) (scope : FilterScope)
    (h : allEmptyFilterState fs) : apply_filters df fs scope = (df, []) := by
  obtain ⟨h1, h2, h3, h4, h5, -⟩ := h
  simp [apply_filters, hasActiveFilters, h1, h2, h3, h4, h5]

/-- Witness for C7 at the default (all-empty) state and a concrete frame. -/
theorem claim_C7_witness :
    apply_filters [rowBoa] ({} : FilterState) FilterScope.all = ([rowBoa], []) :=
  claim_C7 [rowBoa] {} FilterScope.all
    ⟨rfl, rfl, rfl, rfl, rfl, rfl, rfl, rfl, rfl, rfl, rfl⟩

/-- C10: the record component of `apply_filters` is always a sublist of the
input: records kept unaltered, none duplicated, order preserved. -/
theorem claim_C10 (df : List Row) (fs : FilterState) (scope : FilterScope) :
    ((apply_filters df fs scope).1).Sublist df := by
  unfold apply_filters
  split
  · exact List.Sublist.refl df
  · dsimp only
    split
    · exact List.Sublist.refl df
    · exact List.filter_sublist df

/-- C8: the timeline classifier leaves the days missing and reports the
unknown status at level 4 when the expiration date is absent, and otherwise
classifies the day difference by the first matching band: negative is
expired at level 1, up to 7 critical at level 2, up to 30 warning at
level 3, and beyond that normal at level 4. -/
theorem claim_C8 (r : TimelineRow) (hoje : ℤ) :
    (r.expirationDate = none →
      (calcular_status_timeline r hoje).diasAteVencimento = none ∧
        (calcular_status_timeline r hoje).statusTimeline = .semValidade ∧
        (calcular_status_timeline r hoje).urgencyLevel = 4) ∧
    (∀ e, r.expirationDate = some e →
      (calcular_status_timeline r hoje).diasAteVencimento = some (e - hoje) ∧
        (e - hoje < 0 →
          (calcular_status_timeline r hoje).statusTimeline = .vencido ∧
            (calcular_status_timeline r hoje).urgencyLevel = 1) ∧
        (0 ≤ e - hoje → e - hoje ≤ 7 →
          (calcular_status_timeline r hoje).statusTimeline = .critico ∧
            (calcular_status_timeline r hoje).urgencyLevel = 2) ∧
        (7 < e - hoje → e - hoje ≤ 30 →
          (calcular_status_timeline r hoje).statusTimeline = .atencao ∧
            (calcular_status_timeline r hoje).urgencyLevel = 3) ∧
        (30 < e - hoje →
          (calcular_status_timeline r hoje).statusTimeline = .normal ∧
            (calcular_status_timeline r hoje).urgencyLevel = 4)) := by
  constructor
  · intro h
    simp [calcular_status_timeline, h, npSelect]
  · intro e he
    refine ⟨by simp [calcular_status_timeline, he], ?_, ?_, ?_, ?_⟩ <;>
      intros <;>
      simp [calcular_status_timeline, he, npSelect, Option.any] <;>
      split_ifs <;> first | exact ⟨rfl, rfl⟩ | omega

/-- Witness for C8 at the scenario of the specification: two days before
expiration is critical at level 2. -/
theorem claim_C8_witness :
    (calcular_status_timeline tlScenario (toDays 2024 6 1)).diasAteVencimento
        = some 2 ∧
      (calcular_status_timeline tlScenario (toDays 2024 6 1)).statusTimeline
        = .critico ∧
      (calcular_status_timeline tlScenario (toDays 2024 6 1)).urgencyLevel
        = 2 := by
  have h := (claim_C8 tlScenario (toDays 2024 6 1)).2 (toDays 2024 6 3) rfl
  have hd : toDays 2024 6 3 - toDays 2024 6 1 = 2 := by decide
  have h2 := h.2.2.1 (by decide) (by decide)
  exact ⟨by rw [h.1, hd], h2.1, h2.2⟩

/-- C2: a record whose original real expiration date is in the sentinel year
2070 gets no analysis date at all (never the expected-date fallback) and is
classified unknown; and no analysis date the stage produces can be in the
sentinel year, whatever its origin. -/
theorem claim_C2 (r : Row) (hoje : ℤ) :
    (∀ x, r.venc = some x → yearOfDay x = 2070 →
      (calcular_status_tempo r hoje).vencAnalise = none ∧
        (calcular_status_tempo r hoje).statusTempo = .semValidade) ∧
    (∀ q, (calcular_status_tempo r hoje).vencAnalise = some q →
      yearOfStamp q ≠ 2070) := by
  constructor
  · intro x hx hy
    simp [calcular_status_tempo, hx, hy, npSelect, statusTempoOf,
      diasValidadeTotalOf]
  · intro q hq hyq
    simp only [calcular_status_tempo] at hq
    repeat' split at hq
    all_goals simp_all

/-- Witness for C2: the sentinel row keeps no analysis date and is unknown
even though an expected expiration was available. -/
theorem claim_C2_witness :
    (calcular_status_tempo row2070 (toDays 2024 6 1)).vencAnalise = none ∧
      (calcular_status_tempo row2070 (toDays 2024 6 1)).statusTempo
        = .semValidade :=
  (claim_C2 row2070 (toDays 2024 6 1)).1 (toDays 2070 1 1) rfl (by decide)

/-- Characterisation of the time classifier over an arbitrary analysis date
and entry date: the total is missing exactly when a date is, the unknown
status appears exactly for a missing date or a negative total, and a
non-negative total is classified by the three bands. -/
lemma c1_core (va : Option ℚ) (ent : Option ℤ) :
    (diasValidadeTotalOf va ent = none ↔ va = none ∨ ent = none) ∧
    (statusTempoOf va ent = .semValidade ↔
      va = none ∨ ent = none ∨
        ∃ d, diasValidadeTotalOf va ent = some d ∧ d < 0) ∧
    (∀ d, diasValidadeTotalOf va ent = some d → 0 ≤ d →
      statusTempoOf va ent =
        (if 90 < d then .bom else if 30 ≤ d then .atencao else .critico)) := by
  cases va with
  | none => simp [diasValidadeTotalOf, statusTempoOf, npSelect]
  | some q =>
    cases ent with
    | none => simp [diasValidadeTotalOf, statusTempoOf, npSelect]
    | some e =>
      simp only [diasValidadeTotalOf, statusTempoOf, npSelect, Option.any,
        Option.isNone, Bool.or_self, Bool.false_or, decide_eq_true_eq]
      generalize (floorQ (q - (e : ℚ)) : ℤ) = d
      refine ⟨by simp, ?_, ?_⟩
      · constructor
        · intro h
          refine Or.inr (Or.inr ⟨d, rfl, ?_⟩)
          by_contra hge
          push_neg at hge
          split_ifs at h <;> simp_all
        · rintro (h | h | ⟨d', hd', hlt⟩)
          · exact absurd h (by simp)
          · exact absurd h (by simp)
          · obtain rfl : d' = d := by injection hd' with h'; omega
            split_ifs <;> first | rfl | omega
      · intro d' hd hge
        obtain rfl : d' = d := by injection hd with h'; omega
        split_ifs <;> first | rfl | omega | simp_all

/-- C1 (amended): after the time stage, the total shelf life is missing
exactly when the analysis or entry date is; the unknown status holds exactly
when a date is missing or the total is negative (a negative total falls to
the default, not to critical); and a present non-negative total classifies
as good over 90, warning at 30 to 90, critical below 30. -/
theorem claim_C1 (r : Row) (hoje : ℤ) :
    ((calcular_status_tempo r hoje).diasValidadeTotal = none ↔
      (calcular_status_tempo r hoje).vencAnalise = none ∨
        (calcular_status_tempo r hoje).entrada = none) ∧
    ((calcular_status_tempo r hoje).statusTempo = .semValidade ↔
      (calcular_status_tempo r hoje).vencAnalise = none ∨
        (calcular_status_tempo r hoje).entrada = none ∨
        (∃ d, (calcular_status_tempo r hoje).diasValidadeTotal = some d ∧
          d < 0)) ∧
    (∀ d, (calcular_status_tempo r hoje).diasValidadeTotal = some d → 0 ≤ d →
      (calcular_status_tempo r hoje).statusTempo =
        (if 90 < d then .bom else if 30 ≤ d then .atencao else .critico)) :=
  c1_core (calcular_status_tempo r hoje).vencAnalise r.entrada

/-- Counterexample to C1 as stated: this record has both an analysis date
and an entry date, yet its negative total shelf life is classified unknown
rather than critical, so the stated iff and the critical clause both fail. -/
theorem claim_C1_counterexample :
    (calcular_status_tempo rowNegVida (toDays 2024 6 1)).vencAnalise ≠ none ∧
      (calcular_status_tempo rowNegVida (toDays 2024 6 1)).entrada ≠ none ∧
      (calcular_status_tempo rowNegVida (toDays 2024 6 1)).diasValidadeTotal
        = some (-60) ∧
      (calcular_status_tempo rowNegVida (toDays 2024 6 1)).statusTempo
        = .semValidade ∧
      (calcular_status_tempo rowNegVida (toDays 2024 6 1)).statusTempo
        ≠ .critico := by
  have hy : (yearOfDay (toDays 2024 1 1) == 2070) = false := by decide
  have hy2 : (yearOfDay (toDays 2024 1 1) == 2070) = true → False := by decide
  have hd : toDays 2024 1 1 - toDays 2024 3 1 = -60 := by decide
  simp [calcular_status_tempo, rowNegVida, statusTempoOf, diasValidadeTotalOf,
    npSelect, yearOfStamp, floorQ_intCast, floorQ_intCast_sub, hy, hy2, hd,
    Option.any]

/-- Witness for C1 at a record with a 100-day total shelf life. -/
theorem claim_C1_witness :
    (calcular_status_tempo rowBoa 0).statusTempo = StatusTempo.bom := by
  have hf : floorQ (100 : ℚ) = 100 := by
    simp only [floorQ, Rat.num_ofNat, Rat.den_ofNat, Nat.cast_one,
      Int.ediv_one]
  have hyz : yearOfDay (100 : ℤ) ≠ 2070 := by decide
  have hy : yearOfDay (floorQ (100 : ℚ)) ≠ 2070 := by rw [hf]; decide
  have hdvt : (calcular_status_tempo rowBoa 0).diasValidadeTotal = some 100 := by
    simp [calcular_status_tempo, rowBoa, diasValidadeTotalOf, statusTempoOf,
      npSelect, yearOfStamp, hy, hf, hyz, floorQ_intCast, floorQ_intCast_sub]
  have h := (claim_C1 rowBoa 0).2.2 100 hdvt (by decide)
  simpa using h

/-- C3: the divergence detector is a decision list over the five conditions
in their fixed order: the first condition that holds fixes the single
problem tag, a record with no condition gets the empty tag, and the
has-problem flag is exactly the presence of a tag. -/
theorem claim_C3 (r : Row) :
    (divCond1 r = true →
      (identificar_divergencias r).tipoProblema = some .semTempoCadastrado) ∧
    (divCond1 r = false → divCond2 r = true →
      (identificar_divergencias r).tipoProblema = some .semDataReal) ∧
    (divCond1 r = false → divCond2 r = false → divCond3 r = true →
      (identificar_divergencias r).tipoProblema
        = some .semTempoParaCalcular) ∧
    (divCond1 r = false → divCond2 r = false → divCond3 r = false →
      divCond4 r = true →
      (identificar_divergencias r).tipoProblema = some .materialVencido) ∧
    (divCond1 r = false → divCond2 r = false → divCond3 r = false →
      divCond4 r = false → divCond5 r = true →
      (identificar_divergencias r).tipoProblema = some .desvioCritico) ∧
    (divCond1 r = false → divCond2 r = false → divCond3 r = false →
      divCond4 r = false → divCond5 r = false →
      (identificar_divergencias r).tipoProblema = none) ∧
    ((identificar_divergencias r).temProblema
      = (identificar_divergencias r).tipoProblema.isSome) := by
  refine ⟨?_, ?_, ?_, ?_, ?_, ?_, rfl⟩ <;>
    intros <;> simp [identificar_divergencias, npSelect, *]

/-- Witness for C3: a record satisfying condition 2 but not condition 1 is
tagged with the missing-real-date problem. -/
theorem claim_C3_witness :
    (identificar_divergencias rowDiv).tipoProblema
      = some TipoProblema.semDataReal :=
  (claim_C3 rowDiv).2.1 (by decide) (by decide)

/-- C5: the conformance percentage is defined exactly when the real shelf
life is defined and the declared day count is present and positive; its
value is the ratio times 100 clipped to [0, 200]; and every defined value
lies in [0, 200]. -/
theorem claim_C5 (r : Row) (hoje : ℤ) (lb la : ℚ) :
    ((∃ p, (calcular_status_percentual r hoje lb la).pctRestante = some p) ↔
      (∃ x, (calcular_status_percentual r hoje lb la).validadeReal = some x) ∧
        ∃ dv, r.diasValidade = some dv ∧ 0 < dv) ∧
    (∀ x dv, (calcular_status_percentual r hoje lb la).validadeReal = some x →
      r.diasValidade = some dv → 0 < dv →
      (calcular_status_percentual r hoje lb la).pctRestante
        = some (max 0 (min ((x : ℚ) / dv * 100) 200))) ∧
    (∀ p, (calcular_status_percentual r hoje lb la).pctRestante = some p →
      0 ≤ p ∧ p ≤ 200) := by
  rcases he : r.entrada with _ | e <;> rcases hv : r.venc with _ | v <;>
    rcases hdv : r.diasValidade with _ | dv <;>
    simp [calcular_status_percentual, he, hv, hdv]

/-- Witness for C5 at the scenario of the specification: 31 real days over
100 declared days give a conformance of 31, inside [0, 200]. -/
theorem claim_C5_witness :
    (calcular_status_percentual rowPct 0 90 50).pctRestante = some 31 ∧
      (0 : ℚ) ≤ 31 ∧ (31 : ℚ) ≤ 200 := by
  have hd : toDays 2024 2 1 - toDays 2024 1 1 = 31 := by decide
  have hvr : (calcular_status_percentual rowPct 0 90 50).validadeReal
      = some 31 := by
    simp [calcular_status_percentual, rowPct, hd]
  have h2 := (claim_C5 rowPct 0 90 50).2.1 31 100 hvr rfl (by norm_num)
  refine ⟨?_, by norm_num, by norm_num⟩
  rw [h2]
  norm_num

/-- Keeping last occurrences selects a sublist of the input. -/
lemma dropDupKeepLast_sublist (l : List SqRow) :
    (dropDupKeepLast l).Sublist l := by
  induction l with
  | nil => simp [dropDupKeepLast]
  | cons r t ih =>
    rw [dropDupKeepLast]
    split
    · exact ih.trans (List.sublist_cons_self r t)
    · exact ih.cons₂ r

/-- After keeping last occurrences, the keys are pairwise distinct. -/
lemma dropDupKeepLast_keys_nodup (l : List SqRow) :
    ((dropDupKeepLast l).map sqKey).Nodup := by
  induction l with
  | nil => simp [dropDupKeepLast]
  | cons r t ih =>
    rw [dropDupKeepLast]
    split
    · exact ih
    · rename_i hno
      simp only [List.map_cons, List.nodup_cons]
      refine ⟨?_, ih⟩
      intro hmem
      obtain ⟨s, hs, hkey⟩ := List.mem_map.mp hmem
      have hst : s ∈ t := (dropDupKeepLast_sublist t).subset hs
      have : t.any (fun x => decide (sqKey x = sqKey r)) = true :=
        List.any_eq_true.mpr ⟨s, hst, by simp [hkey]⟩
      simp_all

/-- The date order of the loader sort is reflexive. -/
lemma vencLE_refl (a : SqRow) : vencLE a a = true := by
  unfold vencLE
  rcases a.venc with _ | x <;> simp

/-- The date order of the loader sort is transitive. -/
lemma vencLE_trans (a b c : SqRow) (h1 : vencLE a b = true)
    (h2 : vencLE b c = true) : vencLE a c = true := by
  obtain ⟨_, _, av⟩ := a
  obtain ⟨_, _, bv⟩ := b
  obtain ⟨_, _, cv⟩ := c
  simp only [vencLE] at *
  rcases av with _ | x <;> rcases bv with _ | y <;> rcases cv with _ | z <;>
    (simp_all; try omega)

/-- The date order of the loader sort is total. -/
lemma vencLE_total (a b : SqRow) : (vencLE a b || vencLE b a) = true := by
  obtain ⟨_, _, av⟩ := a
  obtain ⟨_, _, bv⟩ := b
  simp only [vencLE]
  rcases av with _ | x <;> rcases bv with _ | y <;> (simp; try omega)

/-- In a list sorted by the loader order, the row kept for a key is at least
as late as every row of that key. -/
lemma dropDupKeepLast_max (l : List SqRow)
    (hs : l.Pairwise (fun a b => vencLE a b = true)) :
    ∀ r ∈ dropDupKeepLast l, ∀ s ∈ l, sqKey s = sqKey r →
      vencLE s r = true := by
  induction l with
  | nil => simp [dropDupKeepLast]
  | cons x t ih =>
    rw [List.pairwise_cons] at hs
    obtain ⟨hx, ht⟩ := hs
    intro r hr s hsm hk
    rw [dropDupKeepLast] at hr
    split at hr
    · rcases List.mem_cons.mp hsm with rfl | hst
      · exact hx r ((dropDupKeepLast_sublist t).subset hr)
      · exact ih ht r hr s hst hk
    · rename_i hno
      rcases List.mem_cons.mp hr with rfl | hrt
      · rcases List.mem_cons.mp hsm with rfl | hst
        · exact vencLE_refl s
        · exfalso
          have : t.any (fun y => decide (sqKey y = sqKey r)) = true :=
            List.any_eq_true.mpr ⟨s, hst, by simp [hk]⟩
          simp_all
      · rcases List.mem_cons.mp hsm with rfl | hst
        · exact hx r ((dropDupKeepLast_sublist t).subset hrt)
        · exact ih ht r hrt s hst hk

/-- C6 (amended): source-B de-duplication leaves pairwise-distinct
(material, batch) keys, keeps only rows of the input, and the kept row of a
key is maximal for the loader order, in which a missing date sorts after
every present date. -/
theorem claim_C6 (l : List SqRow) :
    ((dedup_sq00 l).map sqKey).Nodup ∧
    (∀ r ∈ dedup_sq00 l, r ∈ l) ∧
    (∀ r ∈ dedup_sq00 l, ∀ s ∈ l, sqKey s = sqKey r → vencLE s r = true) := by
  refine ⟨dropDupKeepLast_keys_nodup _, ?_, ?_⟩
  · intro r hr
    exact (List.mergeSort_perm l vencLE).mem_iff.mp
      ((dropDupKeepLast_sublist _).subset hr)
  · intro r hr s hs hk
    have hsorted : (l.mergeSort vencLE).Pairwise (fun a b => vencLE a b = true) :=
      List.sorted_mergeSort (fun a b c => vencLE_trans a b c)
        (fun a b => vencLE_total a b) l
    exact dropDupKeepLast_max _ hsorted r hr s
      ((List.mergeSort_perm l vencLE).mem_iff.mpr hs) hk


/-- Counterexample to C6 as stated: between a dated duplicate and one with a
missing date, de-duplication keeps the row with the missing date, which is
not the row with the latest present expiration date. -/
theorem claim_C6_counterexample :
    dedup_sq00 [sqJan, sqNaT] = [sqNaT] ∧
    ¬(∀ r ∈ dedup_sq00 [sqJan, sqNaT], ∃ d, r.venc = some d ∧
        ∀ s ∈ [sqJan, sqNaT], ∀ e, s.venc = some e → e ≤ d) := by
  have hdd : dedup_sq00 [sqJan, sqNaT] = [sqNaT] := by
    simp [dedup_sq00, List.mergeSort, vencLE, sqJan, sqNaT, dropDupKeepLast,
      sqKey]
  refine ⟨hdd, ?_⟩
  rw [hdd]
  simp [sqNaT]

/-- Witness for C6 at the scenario of the specification: of two duplicates
dated 2024-01-01 and 2024-03-01, the 2024-03-01 row is kept and it is at
least as late as the dropped one. -/
theorem claim_C6_witness :
    dedup_sq00 [sqJan, sqMar] = [sqMar] ∧ vencLE sqJan sqMar = true := by
  have hdd : dedup_sq00 [sqJan, sqMar] = [sqMar] := by
    have hle : toDays 2024 1 1 ≤ toDays 2024 3 1 := by decide
    simp [dedup_sq00, List.mergeSort, List.merge, vencLE, sqJan, sqMar,
      dropDupKeepLast, sqKey, hle]
  have hmem : sqMar ∈ dedup_sq00 [sqJan, sqMar] := by rw [hdd]; simp
  exact ⟨hdd,
    (claim_C6 [sqJan, sqMar]).2.2 sqMar hmem sqJan (by simp) rfl⟩

/-- A flat map whose pieces all have one element preserves the length. -/
lemma length_flatMap_one {α β : Type} (l : List α) (f : α → List β)
    (h : ∀ a ∈ l, (f a).length = 1) : (l.flatMap f).length = l.length := by
  induction l with
  | nil => simp
  | cons a t ih =>
    simp only [List.flatMap_cons, List.length_append, List.length_cons]
    rw [h a (List.mem_cons_self a t), ih (fun x hx => h x (List.mem_cons_of_mem a hx))]
    omega

/-- Filtering by a predicate that pins the key down keeps at most one row of
a list with pairwise-distinct keys. -/
lemma filter_keyed_len_le_one {α κ : Type} (key : α → κ) (p : α → Bool)
    (hp : ∀ x y, p x = true → p y = true → key x = key y) :
    ∀ l : List α, (l.map key).Nodup → (l.filter p).length ≤ 1 := by
  intro l
  induction l with
  | nil => simp
  | cons a t ih =>
    intro hn
    simp only [List.map_cons, List.nodup_cons] at hn
    obtain ⟨hna, hnt⟩ := hn
    rw [List.filter_cons]
    split
    · rename_i hpa
      have hft : t.filter p = [] := by
        rw [List.filter_eq_nil_iff]
        intro x hx hpx
        exact hna (List.mem_map.mpr ⟨x, hx, (hp x a hpx hpa).symm ▸ rfl⟩)
      simp [hft]
    · exact ih hnt

/-- Keeping first occurrences yields pairwise-distinct materials, none of
them previously seen. -/
lemma dropDupKeepFirstForn_spec (l : List FornRow) :
    ∀ seen : List String,
      ((dropDupKeepFirstForn seen l).map (fun f => f.material)).Nodup ∧
      ∀ x ∈ dropDupKeepFirstForn seen l, ¬ seen.contains x.material = true := by
  induction l with
  | nil => intro seen; simp [dropDupKeepFirstForn]
  | cons r t ih =>
    intro seen
    rw [dropDupKeepFirstForn]
    split
    · exact ih seen
    · rename_i hnew
      obtain ⟨ih1, ih2⟩ := ih (r.material :: seen)
      refine ⟨?_, ?_⟩
      · simp only [List.map_cons, List.nodup_cons]
        refine ⟨?_, ih1⟩
        intro hmem
        obtain ⟨x, hx, hkey⟩ := List.mem_map.mp hmem
        have := ih2 x hx
        simp [List.contains_cons, hkey] at this
      · intro x hx
        rcases List.mem_cons.mp hx with rfl | hxt
        · exact fun hc => hnew hc
        · intro hc
          have := ih2 x hxt
          exact this.elim (by
            simp only [List.contains_cons, Bool.or_eq_true]
            exact Or.inr hc)

/-- The first left join preserves the row count when the right side has
pairwise-distinct (material, batch) keys. -/
lemma length_merge_mb51_sq00 (mov : List MovRow) (sq : List SqRow)
    (h : (sq.map sqKey).Nodup) :
    (merge_mb51_sq00 mov sq).length = mov.length := by
  unfold merge_mb51_sq00
  refine length_flatMap_one _ _ ?_
  intro m _
  have hle : (sq.filter (fun s =>
      decide (s.material = m.material) && decide (s.lote = m.lote))).length
      ≤ 1 := by
    refine filter_keyed_len_le_one sqKey _ ?_ sq h
    intro x y hx hy
    simp only [Bool.and_eq_true, decide_eq_true_eq] at hx hy
    simp [sqKey, hx.1, hx.2, hy.1, hy.2]
  rcases hfil : sq.filter (fun s =>
      decide (s.material = m.material) && decide (s.lote = m.lote))
    with _ | ⟨x, xs⟩
  · rw [hfil]
    rfl
  · rw [hfil]
    rw [hfil] at hle
    simp only [List.length_cons, List.length_map]
    simp only [List.length_cons] at hle
    omega

/-- The second left join preserves the row count when the right side has
pairwise-distinct materials. -/
lemma length_merge_fornecedores (l1 : List (MovRow × Option ℤ))
    (forn : List FornRow)
    (h : (forn.map (fun f => f.material)).Nodup) :
    (merge_fornecedores l1 forn).length = l1.length := by
  unfold merge_fornecedores
  refine length_flatMap_one _ _ ?_
  intro p _
  have hle : (forn.filter (fun f => decide (f.material = p.1.material))).length
      ≤ 1 := by
    refine filter_keyed_len_le_one (fun f : FornRow => f.material) _ ?_ forn h
    intro x y hx hy
    simp only [decide_eq_true_eq] at hx hy
    simp [hx, hy]
  rcases hfil : forn.filter (fun f => decide (f.material = p.1.material))
    with _ | ⟨x, xs⟩
  · rw [hfil]
    rfl
  · rw [hfil]
    rw [hfil] at hle
    simp only [List.length_cons, List.length_map]
    simp only [List.length_cons] at hle
    omega

/-- Source-C de-duplication leaves pairwise-distinct materials. -/
lemma dedup_fornecedores_nodup (l : List FornRow) :
    ((dedup_fornecedores l).map (fun f => f.material)).Nodup :=
  (dropDupKeepFirstForn_spec l []).1

/-- Source-B de-duplication leaves pairwise-distinct keys. -/
lemma dedup_sq00_keys_nodup (l : List SqRow) :
    ((dedup_sq00 l).map sqKey).Nodup :=
  dropDupKeepLast_keys_nodup _

/-- C9: the integration of the three sources drops and duplicates nothing:
its row count equals the movement input's row count, because both joins are
left outer joins against de-duplicated right-hand sides. -/
theorem claim_C9 (mov : List MovRow) (sq : List SqRow) (forn : List FornRow) :
    (integrar_dados mov sq forn).length = mov.length := by
  unfold integrar_dados
  rw [length_merge_fornecedores _ _ (dedup_fornecedores_nodup forn),
    length_merge_mb51_sq00 _ _ (dedup_sq00_keys_nodup sq)]

/-- Digit characters satisfy the digit class. -/
lemma digitToChar_isDigit : ∀ i : Fin 10, (digitToChar i).isDigit = true := by
  decide

/-- Lowercasing fixes digit characters. -/
lemma digitToChar_toLower : ∀ i : Fin 10,
    (digitToChar i).toLower = digitToChar i := by decide

/-- Comma normalisation fixes digit characters. -/
lemma digitToChar_commaDot : ∀ i : Fin 10,
    commaDot (digitToChar i) = digitToChar i := by decide

/-- Digit characters are not whitespace. -/
lemma digitToChar_notWs : ∀ i : Fin 10,
    (digitToChar i).isWhitespace = false := by decide

/-- A character map that fixes digits fixes a rendered digit string. -/
lemma renderDigits_map_id (f : Char → Char)
    (hf : ∀ i : Fin 10, f (digitToChar i) = digitToChar i)
    (ds : List (Fin 10)) : (renderDigits ds).map f = renderDigits ds := by
  induction ds with
  | nil => rfl
  | cons i t ih =>
    simp only [renderDigits, List.map_cons] at ih ⊢
    rw [hf, ih]

/-- A character that is no digit does not occur in a digit string. -/
lemma not_mem_renderDigits (c : Char)
    (hc : ∀ i : Fin 10, digitToChar i ≠ c) (ds : List (Fin 10)) :
    c ∉ renderDigits ds := by
  intro hmem
  obtain ⟨i, _, hi⟩ := List.mem_map.mp hmem
  exact hc i hi

/-- Dropping while a predicate holds is the identity when the head fails it. -/
lemma dropWhile_head_not {α : Type} (p : α → Bool) (l : List α)
    (h : ∀ c, l.head? = some c → p c = false) : l.dropWhile p = l := by
  cases l with
  | nil => rfl
  | cons a t => simp [List.dropWhile_cons, h a rfl]

/-- Stripping is the identity on text with no outer whitespace. -/
lemma trimChars_eq_self (l : List Char)
    (h1 : ∀ c, l.head? = some c → c.isWhitespace = false)
    (h2 : ∀ c, l.getLast? = some c → c.isWhitespace = false) :
    trimChars l = l := by
  unfold trimChars
  rw [dropWhile_head_not _ _ h1]
  rw [dropWhile_head_not _ _ (by simpa [List.head?_reverse] using h2)]
  exact List.reverse_reverse l

/-- Folding the digit characters of a rendered sequence equals folding the
digits, for every accumulator. -/
lemma digitsVal_render_aux (ds : List (Fin 10)) : ∀ a : ℕ,
    (renderDigits ds).foldl (fun a c => 10 * a + (c.toNat - 48)) a
      = ds.foldl (fun a i => 10 * a + i.val) a := by
  induction ds with
  | nil => intro a; rfl
  | cons i t ih =>
    intro a
    simp only [renderDigits, List.map_cons, List.foldl_cons] at ih ⊢
    rw [show (digitToChar i).toNat - 48 = i.val from by revert i; decide]
    exact ih _

/-- The digit-run value of a rendered sequence is its decimal value. -/
lemma digitsVal_render (ds : List (Fin 10)) :
    digitsVal (renderDigits ds) = decimalVal ds :=
  digitsVal_render_aux ds 0

/-- Digit characters are none of the sign and dot symbols. -/
lemma digitToChar_ne_symbols : ∀ i : Fin 10,
    digitToChar i ≠ '-' ∧ digitToChar i ≠ '+' ∧ digitToChar i ≠ '.' := by
  decide

/-- The digit run at the head of a rendered number followed by a non-digit
is exactly the rendered number. -/
lemma takeWhile_render (ds : List (Fin 10)) (rest : List Char)
    (hrest : ∀ c, rest.head? = some c → c.isDigit = false) :
    (renderDigits ds ++ rest).takeWhile Char.isDigit = renderDigits ds := by
  induction ds with
  | nil =>
    cases rest with
    | nil => rfl
    | cons c t => simp [List.takeWhile_cons, hrest c rfl, renderDigits]
  | cons i t ih =>
    simp only [renderDigits, List.map_cons, List.cons_append,
      List.takeWhile_cons, digitToChar_isDigit i, if_true] at ih ⊢
    rw [ih]

/-- The number pattern at the head of a rendered number followed by a
non-digit, non-dot remainder matches exactly its decimal value. -/
lemma numAt_render (ds : List (Fin 10)) (rest : List Char) (hne : ds ≠ [])
    (hrest : ∀ c, rest.head? = some c → c.isDigit = false ∧ c ≠ '.') :
    numAt (renderDigits ds ++ rest) = some ((decimalVal ds : ℕ) : ℚ) := by
  cases ds with
  | nil => exact absurd rfl hne
  | cons i t =>
    obtain ⟨hm, hp, -⟩ := digitToChar_ne_symbols i
    unfold numAt
    simp only [renderDigits, List.map_cons, List.cons_append, if_neg hm,
      if_neg hp]
    have htake := takeWhile_render (i :: t) rest (fun c hc => (hrest c hc).1)
    simp only [renderDigits, List.map_cons, List.cons_append] at htake
    rw [htake]
    have h14 : (renderDigits (i :: t)).isEmpty = false := by
      simp [renderDigits]
    simp only [renderDigits, List.map_cons] at h14
    rw [h14]
    simp only [Bool.false_eq_true, if_false]
    have hdrop : (digitToChar i :: List.map digitToChar t ++ rest).drop
        (digitToChar i :: List.map digitToChar t).length = rest := by
      exact List.drop_left (digitToChar i :: List.map digitToChar t) rest
    simp only [← List.cons_append]
    rw [hdrop]
    have hval : digitsVal (digitToChar i :: List.map digitToChar t)
        = decimalVal (i :: t) := by
      have := digitsVal_render (i :: t)
      simpa [renderDigits] using this
    cases rest with
    | nil => simp [hval]
    | cons c t2 =>
      have hcd := (hrest c rfl).2
      simp only [if_neg hcd, hval, one_mul]

/-- The leftmost number of a rendered number followed by a non-digit,
non-dot remainder is its decimal value. -/
lemma firstNumber_render (ds : List (Fin 10)) (rest : List Char)
    (hne : ds ≠ [])
    (hrest : ∀ c, rest.head? = some c → c.isDigit = false ∧ c ≠ '.') :
    firstNumber (renderDigits ds ++ rest) = some ((decimalVal ds : ℕ) : ℚ) := by
  cases ds with
  | nil => exact absurd rfl hne
  | cons i t =>
    have hnum := numAt_render (i :: t) rest hne hrest
    simp only [renderDigits, List.map_cons, List.cons_append] at hnum ⊢
    rw [firstNumber, hnum]

/-- Every list is a prefix of itself followed by anything. -/
lemma isPrefixOf_append_self (p l : List Char) :
    p.isPrefixOf (p ++ l) = true := by
  induction p with
  | nil => simp [List.isPrefixOf]
  | cons c t ih => simp [List.isPrefixOf, ih]

/-- The empty pattern occurs in every text. -/
lemma containsSub_nil (l : List Char) : containsSub l [] = true := by
  induction l with
  | nil => rfl
  | cons c t ih => simp [containsSub, List.isPrefixOf]

/-- A pattern occurs in any text that embeds it contiguously. -/
lemma containsSub_append (l₁ p l₂ : List Char) :
    containsSub (l₁ ++ (p ++ l₂)) p = true := by
  induction l₁ with
  | nil =>
    cases p with
    | nil => simp [containsSub_nil]
    | cons c t => simp [containsSub, isPrefixOf_append_self]
  | cons c t ih =>
    simp [containsSub, ih]

/-- A pattern that occurs in a text only uses characters of the text. -/
lemma mem_of_containsSub (l p : List Char) (h : containsSub l p = true) :
    ∀ c ∈ p, c ∈ l := by
  induction l with
  | nil =>
    simp only [containsSub, List.isEmpty_iff] at h
    subst h
    simp
  | cons a t ih =>
    simp only [containsSub, Bool.or_eq_true] at h
    rcases h with h | h
    · exact fun c hc => (List.isPrefixOf_iff_prefix.mp h).subset hc
    · exact fun c hc => List.mem_cons_of_mem a (ih h c hc)

/-- A pattern with a character foreign to the text does not occur in it. -/
lemma containsSub_eq_false (l p : List Char) (c : Char) (hc : c ∈ p)
    (hl : c ∉ l) : containsSub l p = false := by
  by_contra h
  rw [Bool.not_eq_false] at h
  exact hl (mem_of_containsSub l p h c hc)

/-- A whole-word match only uses characters of the text. -/
lemma mem_of_hasWordAt (p : List Char) :
    ∀ (l : List Char) (prev : Option Char),
      hasWordAt prev l p = true → ∀ c ∈ p, c ∈ l := by
  intro l
  induction l with
  | nil =>
    intro prev h
    simp only [hasWordAt, Bool.and_eq_true, List.isEmpty_iff] at h
    obtain ⟨h1, -⟩ := h
    subst h1
    simp
  | cons a t ih =>
    intro prev h
    simp only [hasWordAt, Bool.or_eq_true, Bool.and_eq_true] at h
    rcases h with ⟨⟨-, hpre⟩, -⟩ | h
    · exact fun c hc => (List.isPrefixOf_iff_prefix.mp hpre).subset hc
    · exact fun c hc => List.mem_cons_of_mem a (ih (some a) h c hc)

/-- A pattern with a character foreign to the text has no word match. -/
lemma hasWord_eq_false (l p : List Char) (c : Char) (hc : c ∈ p)
    (hl : c ∉ l) : hasWord l p = false := by
  by_contra h
  rw [Bool.not_eq_false] at h
  exact hl (mem_of_hasWordAt p l none h c hc)

/-- The letter of the month word differs from every digit character. -/
lemma beq_m_digit : ∀ i : Fin 10, (('m' : Char) == digitToChar i) = false := by
  decide

/-- The letter of the day word differs from every digit character. -/
lemma beq_d_digit : ∀ i : Fin 10, (('d' : Char) == digitToChar i) = false := by
  decide

/-- The month word-boundary indicator matches after a digit run and a
space, from any previous character. -/
lemma hasWord_mo_render (ds : List (Fin 10)) : ∀ prev : Option Char,
    hasWordAt prev (renderDigits ds ++ [' ', 'm', 'o']) ['m', 'o'] = true := by
  induction ds with
  | nil =>
    intro prev
    simp only [renderDigits, List.map_nil, List.nil_append, hasWordAt,
      List.isPrefixOf, Bool.and_false, Bool.false_and, Bool.false_or]
    simp [boundaryOk, afterOk, isWordChar]
  | cons i t ih =>
    intro prev
    simp only [renderDigits, List.map_cons, List.cons_append, hasWordAt,
      List.isPrefixOf, beq_m_digit i, Bool.false_and, Bool.and_false,
      Bool.false_or]
    exact ih (some (digitToChar i))

/-- The day word-boundary indicator matches after a digit run and a space,
from any previous character. -/
lemma hasWord_d_render (ds : List (Fin 10)) : ∀ prev : Option Char,
    hasWordAt prev (renderDigits ds ++ [' ', 'd']) ['d'] = true := by
  induction ds with
  | nil =>
    intro prev
    simp only [renderDigits, List.map_nil, List.nil_append, hasWordAt,
      List.isPrefixOf, Bool.and_false, Bool.false_and, Bool.false_or]
    simp [boundaryOk, afterOk, isWordChar]
  | cons i t ih =>
    intro prev
    simp only [renderDigits, List.map_cons, List.cons_append, hasWordAt,
      List.isPrefixOf, beq_d_digit i, Bool.false_and, Bool.and_false,
      Bool.false_or]
    exact ih (some (digitToChar i))

/-- A nonempty digit sequence renders to nonempty text. -/
lemma renderDigits_ne_nil (ds : List (Fin 10)) (hne : ds ≠ []) :
    renderDigits ds ≠ [] := by
  cases ds with
  | nil => exact absurd rfl hne
  | cons i t => simp [renderDigits]

/-- Normalisation is the identity on a rendered number followed by
already-normal text that does not end in whitespace. -/
lemma normalizeText_render (ds : List (Fin 10)) (u : List Char)
    (hne : ds ≠ []) (hu : u ≠ [])
    (hlow : u.map Char.toLower = u)
    (hcomma : u.map commaDot = u)
    (hlast : ∀ c, u.getLast? = some c → c.isWhitespace = false) :
    normalizeText (renderDigits ds ++ u) = renderDigits ds ++ u := by
  unfold normalizeText
  rw [trimChars_eq_self]
  · rw [List.map_append, List.map_append,
      renderDigits_map_id Char.toLower digitToChar_toLower,
      renderDigits_map_id commaDot digitToChar_commaDot, hlow, hcomma]
  · intro c hc
    cases ds with
    | nil => exact absurd rfl hne
    | cons i t =>
      simp only [renderDigits, List.map_cons, List.cons_append,
        List.head?_cons, Option.some.injEq] at hc
      rw [← hc]
      exact digitToChar_notWs i
  · intro c hc
    rw [List.getLast?_append] at hc
    cases hu2 : u.getLast? with
    | none =>
      exact absurd (List.getLast?_eq_none_iff.mp hu2) hu
    | some c2 =>
      rw [hu2] at hc
      simp only [Option.or_some, Option.some.injEq] at hc
      exact hc ▸ hlast c2 hu2

/-- Evaluation of the parser core on a rendered number followed by a unit
suffix: the extracted number is the decimal value and the result follows
the unit-indicator decision chain. -/
lemma parseDaysChars_render (ds : List (Fin 10)) (u : List Char)
    (hne : ds ≠ []) (hu : u ≠ [])
    (hlow : u.map Char.toLower = u)
    (hcomma : u.map commaDot = u)
    (hlast : ∀ c, u.getLast? = some c → c.isWhitespace = false)
    (hhead : ∀ c, u.head? = some c → c.isDigit = false ∧ c ≠ '.') :
    parseDaysChars (renderDigits ds ++ u) =
      (if containsSub (renderDigits ds ++ u) ['m', 'e', 's']
          || hasWord (renderDigits ds ++ u) ['m', 'o'] then
        some ((decimalVal ds : ℚ) * (487 / 16))
      else if containsSub (renderDigits ds ++ u) ['a', 'n', 'o']
          || containsSub (renderDigits ds ++ u) ['a', 'n', 'o', 's']
          || containsSub (renderDigits ds ++ u) ['y', 'e', 'a', 'r'] then
        some ((decimalVal ds : ℚ) * 365)
      else if containsSub (renderDigits ds ++ u) ['d', 'i', 'a']
          || containsSub (renderDigits ds ++ u) ['d', 'i', 'a', 's']
          || hasWord (renderDigits ds ++ u) ['d'] then
        some ((decimalVal ds : ℚ))
      else none) := by
  simp only [parseDaysChars]
  rw [normalizeText_render ds u hne hu hlow hcomma hlast]
  have hemp : (renderDigits ds ++ u).isEmpty = false := by
    cases ds with
    | nil => exact absurd rfl hne
    | cons i t => simp [renderDigits]
  rw [hemp]
  simp only [Bool.false_eq_true, if_false]
  have hfn : ∀ c, u.head? = some c → c.isDigit = false ∧ c ≠ '.' := hhead
  rw [firstNumber_render ds u hne hfn]

/-- A suffix beginning with a space starts with no digit and no dot. -/
lemma head_not_digit_dot_of_space (u : List Char) :
    ∀ c, (' ' :: u).head? = some c → c.isDigit = false ∧ c ≠ '.' := by
  intro c hc
  simp only [List.head?_cons, Option.some.injEq] at hc
  subst hc
  exact ⟨rfl, by decide⟩

/-- A character that is no digit and foreign to the suffix does not occur
in a rendered number followed by that suffix. -/
lemma not_mem_render_append (c : Char)
    (hd : ∀ i : Fin 10, digitToChar i ≠ c) (u : List Char) (hu : c ∉ u)
    (ds : List (Fin 10)) : c ∉ renderDigits ds ++ u := by
  intro h
  rcases List.mem_append.mp h with h | h
  · exact not_mem_renderDigits c hd ds h
  · exact hu h

/-- No digit character is the letter m. -/
lemma digitToChar_ne_m : ∀ i : Fin 10, digitToChar i ≠ 'm' := by decide

/-- No digit character is the letter n. -/
lemma digitToChar_ne_n : ∀ i : Fin 10, digitToChar i ≠ 'n' := by decide

/-- No digit character is the letter y. -/
lemma digitToChar_ne_y : ∀ i : Fin 10, digitToChar i ≠ 'y' := by decide

/-- No digit character is the letter d. -/
lemma digitToChar_ne_d : ∀ i : Fin 10, digitToChar i ≠ 'd' := by decide

/-- A number with the plural day unit parses to the number itself. -/
lemma parse_dias_render (ds : List (Fin 10)) (hne : ds ≠ []) :
    parseDaysChars (renderDigits ds ++ [' ', 'd', 'i', 'a', 's'])
      = some ((decimalVal ds : ℚ)) := by
  rw [parseDaysChars_render ds [' ', 'd', 'i', 'a', 's'] hne (by decide)
    (by decide) (by decide) (by intro c hc; simp at hc; simp [← hc])
    (head_not_digit_dot_of_space _)]
  have hnm := not_mem_render_append 'm' digitToChar_ne_m
    [' ', 'd', 'i', 'a', 's'] (by decide) ds
  have hnn := not_mem_render_append 'n' digitToChar_ne_n
    [' ', 'd', 'i', 'a', 's'] (by decide) ds
  have hny := not_mem_render_append 'y' digitToChar_ne_y
    [' ', 'd', 'i', 'a', 's'] (by decide) ds
  rw [containsSub_eq_false _ _ 'm' (by decide) hnm,
    hasWord_eq_false _ _ 'm' (by decide) hnm,
    containsSub_eq_false _ _ 'n' (by decide) hnn,
    containsSub_eq_false _ _ 'n' (by decide) hnn,
    containsSub_eq_false _ _ 'y' (by decide) hny]
  have hdia : containsSub (renderDigits ds ++ [' ', 'd', 'i', 'a', 's'])
      ['d', 'i', 'a'] = true := by
    have heq : renderDigits ds ++ [' ', 'd', 'i', 'a', 's']
        = (renderDigits ds ++ [' ']) ++ (['d', 'i', 'a'] ++ ['s']) := by
      simp
    rw [heq]
    exact containsSub_append _ _ _
  rw [hdia]
  simp

/-- No digit character is the letter e. -/
lemma digitToChar_ne_e : ∀ i : Fin 10, digitToChar i ≠ 'e' := by decide

/-- No digit character is the letter i. -/
lemma digitToChar_ne_i : ∀ i : Fin 10, digitToChar i ≠ 'i' := by decide

/-- A number with the word-boundary day unit parses to the number itself. -/
lemma parse_d_render (ds : List (Fin 10)) (hne : ds ≠ []) :
    parseDaysChars (renderDigits ds ++ [' ', 'd'])
      = some ((decimalVal ds : ℚ)) := by
  rw [parseDaysChars_render ds [' ', 'd'] hne (by decide)
    (by decide) (by decide) (by intro c hc; simp at hc; simp [← hc])
    (head_not_digit_dot_of_space _)]
  have hnm := not_mem_render_append 'm' digitToChar_ne_m [' ', 'd']
    (by decide) ds
  have hnn := not_mem_render_append 'n' digitToChar_ne_n [' ', 'd']
    (by decide) ds
  have hny := not_mem_render_append 'y' digitToChar_ne_y [' ', 'd']
    (by decide) ds
  have hni := not_mem_render_append 'i' digitToChar_ne_i [' ', 'd']
    (by decide) ds
  have hwd : hasWord (renderDigits ds ++ [' ', 'd']) ['d'] = true :=
    hasWord_d_render ds none
  rw [containsSub_eq_false _ _ 'm' (by decide) hnm,
    hasWord_eq_false _ _ 'm' (by decide) hnm,
    containsSub_eq_false _ _ 'n' (by decide) hnn,
    containsSub_eq_false _ _ 'n' (by decide) hnn,
    containsSub_eq_false _ _ 'y' (by decide) hny,
    containsSub_eq_false _ _ 'i' (by decide) hni,
    containsSub_eq_false _ _ 'i' (by decide) hni, hwd]
  simp

/-- A number with the plural month unit parses to the number times the
days-per-month factor. -/
lemma parse_meses_render (ds : List (Fin 10)) (hne : ds ≠ []) :
    parseDaysChars (renderDigits ds ++ [' ', 'm', 'e', 's', 'e', 's'])
      = some ((decimalVal ds : ℚ) * (487 / 16)) := by
  rw [parseDaysChars_render ds [' ', 'm', 'e', 's', 'e', 's'] hne (by decide)
    (by decide) (by decide) (by intro c hc; simp at hc; simp [← hc])
    (head_not_digit_dot_of_space _)]
  have hmes : containsSub (renderDigits ds ++ [' ', 'm', 'e', 's', 'e', 's'])
      ['m', 'e', 's'] = true := by
    have heq : renderDigits ds ++ [' ', 'm', 'e', 's', 'e', 's']
        = (renderDigits ds ++ [' ']) ++ (['m', 'e', 's'] ++ ['e', 's']) := by
      simp
    rw [heq]
    exact containsSub_append _ _ _
  rw [hmes]
  simp

/-- A number with the word-boundary month unit parses to the number times
the days-per-month factor. -/
lemma parse_mo_render (ds : List (Fin 10)) (hne : ds ≠ []) :
    parseDaysChars (renderDigits ds ++ [' ', 'm', 'o'])
      = some ((decimalVal ds : ℚ) * (487 / 16)) := by
  rw [parseDaysChars_render ds [' ', 'm', 'o'] hne (by decide)
    (by decide) (by decide) (by intro c hc; simp at hc; simp [← hc])
    (head_not_digit_dot_of_space _)]
  have hwm : hasWord (renderDigits ds ++ [' ', 'm', 'o']) ['m', 'o'] = true :=
    hasWord_mo_render ds none
  rw [hwm]
  simp

/-- A number with the plural year unit parses to the number times 365. -/
lemma parse_anos_render (ds : List (Fin 10)) (hne : ds ≠ []) :
    parseDaysChars (renderDigits ds ++ [' ', 'a', 'n', 'o', 's'])
      = some ((decimalVal ds : ℚ) * 365) := by
  rw [parseDaysChars_render ds [' ', 'a', 'n', 'o', 's'] hne (by decide)
    (by decide) (by decide) (by intro c hc; simp at hc; simp [← hc])
    (head_not_digit_dot_of_space _)]
  have hnm := not_mem_render_append 'm' digitToChar_ne_m [' ', 'a', 'n', 'o', 's']
    (by decide) ds
  have hano : containsSub (renderDigits ds ++ [' ', 'a', 'n', 'o', 's'])
      ['a', 'n', 'o'] = true := by
    have heq : renderDigits ds ++ [' ', 'a', 'n', 'o', 's']
        = (renderDigits ds ++ [' ']) ++ (['a', 'n', 'o'] ++ ['s']) := by
      simp
    rw [heq]
    exact containsSub_append _ _ _
  rw [containsSub_eq_false _ _ 'm' (by decide) hnm,
    hasWord_eq_false _ _ 'm' (by decide) hnm, hano]
  simp

/-- A number with the English year unit parses to the number times 365. -/
lemma parse_year_render (ds : List (Fin 10)) (hne : ds ≠ []) :
    parseDaysChars (renderDigits ds ++ [' ', 'y', 'e', 'a', 'r'])
      = some ((decimalVal ds : ℚ) * 365) := by
  rw [parseDaysChars_render ds [' ', 'y', 'e', 'a', 'r'] hne (by decide)
    (by decide) (by decide) (by intro c hc; simp at hc; simp [← hc])
    (head_not_digit_dot_of_space _)]
  have hnm := not_mem_render_append 'm' digitToChar_ne_m [' ', 'y', 'e', 'a', 'r']
    (by decide) ds
  have hnn := not_mem_render_append 'n' digitToChar_ne_n [' ', 'y', 'e', 'a', 'r']
    (by decide) ds
  have hyear : containsSub (renderDigits ds ++ [' ', 'y', 'e', 'a', 'r'])
      ['y', 'e', 'a', 'r'] = true := by
    have heq : renderDigits ds ++ [' ', 'y', 'e', 'a', 'r']
        = (renderDigits ds ++ [' ']) ++ (['y', 'e', 'a', 'r'] ++ []) := by
      simp
    rw [heq]
    exact containsSub_append _ _ _
  rw [containsSub_eq_false _ _ 'm' (by decide) hnm,
    hasWord_eq_false _ _ 'm' (by decide) hnm,
    containsSub_eq_false _ _ 'n' (by decide) hnn,
    containsSub_eq_false _ _ 'n' (by decide) hnn, hyear]
  simp

/-- When month, year and day indicators are all present, the month
indicator wins: it is tested first. -/
lemma parse_mes_ano_dia_render (ds : List (Fin 10)) (hne : ds ≠ []) :
    parseDaysChars (renderDigits ds
        ++ [' ', 'm', 'e', 's', ' ', 'a', 'n', 'o', ' ', 'd', 'i', 'a'])
      = some ((decimalVal ds : ℚ) * (487 / 16)) := by
  rw [parseDaysChars_render ds
    [' ', 'm', 'e', 's', ' ', 'a', 'n', 'o', ' ', 'd', 'i', 'a'] hne
    (by decide) (by decide) (by decide)
    (by intro c hc; simp at hc; simp [← hc])
    (head_not_digit_dot_of_space _)]
  have hmes : containsSub (renderDigits ds
      ++ [' ', 'm', 'e', 's', ' ', 'a', 'n', 'o', ' ', 'd', 'i', 'a'])
      ['m', 'e', 's'] = true := by
    have heq : renderDigits ds
        ++ [' ', 'm', 'e', 's', ' ', 'a', 'n', 'o', ' ', 'd', 'i', 'a']
        = (renderDigits ds ++ [' ']) ++ (['m', 'e', 's']
          ++ [' ', 'a', 'n', 'o', ' ', 'd', 'i', 'a']) := by
      simp
    rw [heq]
    exact containsSub_append _ _ _
  rw [hmes]
  simp

/-- When year and day indicators are present without a month indicator,
the year indicator wins: it is tested before the day one. -/
lemma parse_ano_dia_render (ds : List (Fin 10)) (hne : ds ≠ []) :
    parseDaysChars (renderDigits ds ++ [' ', 'a', 'n', 'o', ' ', 'd', 'i', 'a'])
      = some ((decimalVal ds : ℚ) * 365) := by
  rw [parseDaysChars_render ds [' ', 'a', 'n', 'o', ' ', 'd', 'i', 'a'] hne
    (by decide) (by decide) (by decide)
    (by intro c hc; simp at hc; simp [← hc])
    (head_not_digit_dot_of_space _)]
  have hnm := not_mem_render_append 'm' digitToChar_ne_m
    [' ', 'a', 'n', 'o', ' ', 'd', 'i', 'a'] (by decide) ds
  have hano : containsSub (renderDigits ds
      ++ [' ', 'a', 'n', 'o', ' ', 'd', 'i', 'a']) ['a', 'n', 'o'] = true := by
    have heq : renderDigits ds ++ [' ', 'a', 'n', 'o', ' ', 'd', 'i', 'a']
        = (renderDigits ds ++ [' ']) ++ (['a', 'n', 'o']
          ++ [' ', 'd', 'i', 'a']) := by
      simp
    rw [heq]
    exact containsSub_append _ _ _
  rw [containsSub_eq_false _ _ 'm' (by decide) hnm,
    hasWord_eq_false _ _ 'm' (by decide) hnm, hano]
  simp

/-- Normalisation is the identity on a bare rendered number. -/
lemma normalizeText_render_nil (ds : List (Fin 10)) (hne : ds ≠ []) :
    normalizeText (renderDigits ds) = renderDigits ds := by
  unfold normalizeText
  rw [trimChars_eq_self]
  · rw [renderDigits_map_id Char.toLower digitToChar_toLower,
      renderDigits_map_id commaDot digitToChar_commaDot]
  · intro c hc
    cases ds with
    | nil => exact absurd rfl hne
    | cons i t =>
      simp only [renderDigits, List.map_cons, List.head?_cons,
        Option.some.injEq] at hc
      rw [← hc]
      exact digitToChar_notWs i
  · intro c hc
    have hmem : c ∈ renderDigits ds := List.mem_of_mem_getLast? hc
    obtain ⟨i, -, hi⟩ := List.mem_map.mp hmem
    rw [← hi]
    exact digitToChar_notWs i

/-- A bare number with no unit indicator parses to nothing. -/
lemma parse_nounit_render (ds : List (Fin 10)) (hne : ds ≠ []) :
    parseDaysChars (renderDigits ds) = none := by
  simp only [parseDaysChars]
  rw [normalizeText_render_nil ds hne]
  have hemp : (renderDigits ds).isEmpty = false := by
    cases ds with
    | nil => exact absurd rfl hne
    | cons i t => simp [renderDigits]
  rw [hemp]
  simp only [Bool.false_eq_true, if_false]
  have hfn := firstNumber_render ds [] hne (by intro c hc; simp at hc)
  rw [List.append_nil] at hfn
  rw [hfn]
  have hnm := not_mem_renderDigits 'm' digitToChar_ne_m ds
  have hnn := not_mem_renderDigits 'n' digitToChar_ne_n ds
  have hny := not_mem_renderDigits 'y' digitToChar_ne_y ds
  have hnd := not_mem_renderDigits 'd' digitToChar_ne_d ds
  rw [containsSub_eq_false _ _ 'm' (by decide) hnm,
    hasWord_eq_false _ _ 'm' (by decide) hnm,
    containsSub_eq_false _ _ 'n' (by decide) hnn,
    containsSub_eq_false _ _ 'n' (by decide) hnn,
    containsSub_eq_false _ _ 'y' (by decide) hny,
    containsSub_eq_false _ _ 'd' (by decide) hnd,
    containsSub_eq_false _ _ 'd' (by decide) hnd,
    hasWord_eq_false _ _ 'd' (by decide) hnd]
  simp

/-- C4: for every nonempty digit sequence, the parser maps the rendered
number with a day, month or year unit to the number times 1, 30.4375
(= 487/16) or 365; the unit indicators are tested month first, then year,
then day, as the two mixed-unit cases show; and blank input, input with no
number, and a number with no unit all parse to nothing. -/
theorem claim_C4 (ds : List (Fin 10)) (hne : ds ≠ []) :
    (parse_tempo_validade_to_days
        (some (renderDigits ds ++ [' ', 'd', 'i', 'a', 's']))
      = some ((decimalVal ds : ℚ) * 1)) ∧
    (parse_tempo_validade_to_days (some (renderDigits ds ++ [' ', 'd']))
      = some ((decimalVal ds : ℚ) * 1)) ∧
    (parse_tempo_validade_to_days
        (some (renderDigits ds ++ [' ', 'm', 'e', 's', 'e', 's']))
      = some ((decimalVal ds : ℚ) * (487 / 16))) ∧
    (parse_tempo_validade_to_days (some (renderDigits ds ++ [' ', 'm', 'o']))
      = some ((decimalVal ds : ℚ) * (487 / 16))) ∧
    (parse_tempo_validade_to_days
        (some (renderDigits ds ++ [' ', 'a', 'n', 'o', 's']))
      = some ((decimalVal ds : ℚ) * 365)) ∧
    (parse_tempo_validade_to_days
        (some (renderDigits ds ++ [' ', 'y', 'e', 'a', 'r']))
      = some ((decimalVal ds : ℚ) * 365)) ∧
    (parse_tempo_validade_to_days (some (renderDigits ds
        ++ [' ', 'm', 'e', 's', ' ', 'a', 'n', 'o', ' ', 'd', 'i', 'a']))
      = some ((decimalVal ds : ℚ) * (487 / 16))) ∧
    (parse_tempo_validade_to_days (some (renderDigits ds
        ++ [' ', 'a', 'n', 'o', ' ', 'd', 'i', 'a']))
      = some ((decimalVal ds : ℚ) * 365)) ∧
    (parse_tempo_validade_to_days (some (renderDigits ds)) = none) ∧
    (parse_tempo_validade_to_days none = none) ∧
    (parse_tempo_validade_to_days (some []) = none) ∧
    (parse_tempo_validade_to_days (some [' ', ' ']) = none) ∧
    (parse_tempo_validade_to_days (some ['m', 'e', 's']) = none) := by
  refine ⟨?_, ?_, ?_, ?_, ?_, ?_, ?_, ?_, ?_, rfl, by decide, by decide,
    by decide⟩
  · rw [mul_one]
    exact parse_dias_render ds hne
  · rw [mul_one]
    exact parse_d_render ds hne
  · exact parse_meses_render ds hne
  · exact parse_mo_render ds hne
  · exact parse_anos_render ds hne
  · exact parse_year_render ds hne
  · exact parse_mes_ano_dia_render ds hne
  · exact parse_ano_dia_render ds hne
  · exact parse_nounit_render ds hne

/-- Witness for C4: the rendered text of 12 months parses to 365.25 days. -/
theorem claim_C4_witness :
    parse_tempo_validade_to_days
        (some (renderDigits [1, 2] ++ [' ', 'm', 'e', 's', 'e', 's']))
      = some ((12 : ℚ) * (487 / 16)) := by
  have h := (claim_C4 [1, 2] (by decide)).2.2.1
  have hv : decimalVal [1, 2] = 12 := by decide
  rw [hv] at h
  exact h
